import Mathlib

/-!
Verification of the SONAR byte-to-tone codec and the dSONAR reverse
reconstruction pipeline.

The definitions below are a shallow embedding of the C sources:
`src/modules/default/mbx_sonar.c` (forward codec) and the dSONAR module
(`mbx_dsonar.c`, whose text ships inside `README.linux.md` in this
repository snapshot; declarations in `src/modules/default/mbx_dsonar.h`).

Modelling conventions:
* C `double` values are modelled as exact rationals (`ℚ`); the codec only
  performs field arithmetic and one truncating cast, which are exact on the
  values of interest.
* The C cast `(unsigned char)x` of a non-negative `double` truncates toward
  zero; on non-negative rationals this is `Int.toNat ⌊x⌋`.
* C linked lists (`audio_sample_node_t`, `reverse_sample_node_t`) are
  modelled as Lean `List`s in the same order (head = list head).
* File I/O is abstracted: each decoder takes the parsed content of its
  input file (one entry per line / window) instead of a `FILE*`.  The
  per-line `sscanf` outcome is modelled as an `Option` of the parsed
  fields, since string scanning itself is not the subject of any claim.
-/

namespace Sonar

/-- Embedding of `sonar_config_t` from `mbx_sonar.h` (the `use_dynamic_lib` flag is kept
for structural fidelity; it plays no role in the codec). -/
structure sonar_config where
  sample_rate : ℤ
  base_frequency : ℚ
  frequency_range : ℚ
  sample_duration : ℚ
  use_dynamic_lib : Bool
deriving DecidableEq

/-- Embedding of `dsonar_config_t` from `mbx_dsonar.h`. -/
structure dsonar_config where
  base_frequency : ℚ
  frequency_range : ℚ
  tolerance : ℚ
  strict_mode : Bool
deriving DecidableEq

/-- Embedding of `default_config` in `mbx_sonar.c`: 44100 Hz, base 220 Hz, range 2000 Hz,
50 ms per byte. -/
def default_config : sonar_config :=
  { sample_rate := 44100, base_frequency := 220, frequency_range := 2000,
    sample_duration := 1/20, use_dynamic_lib := true }

/-- Embedding of `default_dsonar_config` in `mbx_dsonar.c`: base 220 Hz, range 2000 Hz,
5 Hz tolerance, non-strict. -/
def default_dsonar_config : dsonar_config :=
  { base_frequency := 220, frequency_range := 2000, tolerance := 5,
    strict_mode := false }

/-- Embedding of `map_byte_to_frequency` (`mbx_sonar.c`):
`base_frequency + (byte / 255.0) * frequency_range`. -/
def map_byte_to_frequency (byte : ℕ) (config : sonar_config) : ℚ :=
  config.base_frequency + ((byte : ℚ) / 255) * config.frequency_range

/-- Embedding of `map_byte_to_amplitude` (`mbx_sonar.c`): `0.1 + (byte / 255.0) * 0.9`. -/
def map_byte_to_amplitude (byte : ℕ) : ℚ :=
  1/10 + ((byte : ℚ) / 255) * (9/10)

/-- Embedding of `frequency_to_byte` (`mbx_dsonar.c`): clamp below `base_frequency` to 0,
above `base_frequency + frequency_range` to 255, otherwise
`(unsigned char)(normalized * 255.0 + 0.5)`.  The value cast is in
`[0.5, 255.5]` on the reachable branch, so the truncating cast is
`Int.toNat ∘ Int.floor`. -/
def frequency_to_byte (frequency : ℚ) (config : dsonar_config) : ℕ :=
  if frequency < config.base_frequency then 0
  else if frequency > config.base_frequency + config.frequency_range then 255
  else
    Int.toNat ⌊(frequency - config.base_frequency) / config.frequency_range * 255 + 1/2⌋

/-- Round-half-up on rationals, the rounding rule the specification's
`round` denotes for the non-negative values produced by the decoder. -/
def roundHalfUp (x : ℚ) : ℤ := ⌊x + 1/2⌋

/-- Embedding of `reverse_sample_node_t` from `mbx_dsonar.h`.  The C `next` pointer is
replaced by membership in a Lean `List` in the same order. -/
structure ReverseSample where
  reconstructed_byte : ℕ
  source_frequency : ℚ
  confidence_score : ℚ
  sample_index : ℕ
deriving DecidableEq

/-- Embedding of `create_reverse_sample` (`mbx_dsonar.c`): byte is the inverse-mapped
frequency, default confidence 0.5. -/
def create_reverse_sample (frequency : ℚ) (index : ℕ)
    (config : dsonar_config) : ReverseSample :=
  { source_frequency := frequency, sample_index := index,
    reconstructed_byte := frequency_to_byte frequency config,
    confidence_score := 1/2 }

/-- Embedding of `add_reverse_sample` (`mbx_dsonar.c`): walk to the tail of the list and
attach the new sample there (empty list becomes the singleton). -/
def add_reverse_sample : List ReverseSample → ReverseSample → List ReverseSample
  | [], sample => [sample]
  | x :: rest, sample => x :: add_reverse_sample rest sample

/-- Embedding of `samples_to_bytes` (`mbx_dsonar.c`): `NULL` (here `none`) for an empty
list, otherwise the buffer of `reconstructed_byte` fields in list order
(the returned length is the list length, carried here by the list itself). -/
def samples_to_bytes : List ReverseSample → Option (List ℕ)
  | [] => none
  | x :: rest => some ((x :: rest).map (·.reconstructed_byte))

/-- Embedding of `dsonar_result_t` from `mbx_dsonar.h`. -/
structure DsonarResult where
  reconstructed_data : List ℕ
  data_length : ℕ
  average_confidence : ℚ
  successful_samples : ℕ
  total_samples : ℕ
deriving DecidableEq

/-- Embedding of `calculate_reconstruction_accuracy` (`mbx_dsonar.c`): count positionwise
matches over the first `length` positions and divide by `length`; returns 0
when `length <= 0`.  The C function reads both buffers up to `length`; its
callers pass `length <= min` of the two buffer lengths, modelled by taking
from the zip of the two lists. -/
def calculate_reconstruction_accuracy (original reconstructed : List ℕ)
    (length : ℤ) : ℚ :=
  if length ≤ 0 then 0
  else
    ((((original.zip reconstructed).take length.toNat).countP
        (fun p => p.1 == p.2) : ℚ)) / (length : ℚ)

/-- The partition loop of `combine_partition_files` (`mbx_dsonar.c`), with
file I/O abstracted: each partition index contributes either its
reconstructed byte file (`some bytes`) or `none` when the file is
missing/unreadable, in which case it is skipped with a warning; present
files are copied to the output in partition-index order. -/
def combine_loop : List (Option (List ℕ)) → List ℕ
  | [] => []
  | none :: rest => combine_loop rest
  | some bytes :: rest => bytes ++ combine_loop rest

/-- Embedding of `combine_partition_files` (`mbx_dsonar.c`): runs `combine_loop` over the
partition indices and returns the success flag `total_bytes > 0`. -/
def combine_partition_files (parts : List (Option (List ℕ))) :
    List ℕ × Bool :=
  let out := combine_loop parts
  (out, out.length != 0)

/-- One parsed CSV data row of `reconstruct_from_csv` (`mbx_dsonar.c`):
the fields of `sscanf(line, "%d,%7[^,],%d,%lf,%lf,%lf", ...)` on the layout
`Sample,Byte_Hex,Byte_Dec,Frequency_Hz,Amplitude,Duration_s`. -/
structure CsvRow where
  sample_num : ℤ
  byte_hex : String
  byte_dec : ℤ
  frequency : ℚ
  amplitude : ℚ
  duration : ℚ
deriving DecidableEq

/-- The data-line loop of `reconstruct_from_csv`: each data line is either
`some row` (all six fields scanned) or `none` (warned and skipped).
Returns, in line order, the reconstructed bytes (`(unsigned char)byte_dec`,
a mod-256 conversion in C), the count of successfully parsed rows, and the
running total of the amplitude-derived confidences. -/
def csv_scan : List (Option CsvRow) → List ℕ × ℕ × ℚ
  | [] => ([], 0, 0)
  | none :: rest => csv_scan rest
  | some row :: rest =>
      let r := csv_scan rest
      ((row.byte_dec % 256).toNat :: r.1, r.2.1 + 1, row.amplitude + r.2.2)

/-- Embedding of `reconstruct_from_csv` (`mbx_dsonar.c`), file I/O abstracted:
`header_ok` is whether the header line could be read, `rows` the per-line
scan results of the data lines.  Fails when the header is unreadable or no
data lines exist; `total_samples` is the number of data lines,
`successful_samples` the number of parsed rows, `average_confidence` the
amplitude total divided by the parsed-row count. -/
def reconstruct_from_csv (header_ok : Bool) (rows : List (Option CsvRow)) :
    Option DsonarResult :=
  if header_ok = false then none
  else if rows.length = 0 then none
  else
    let scan := csv_scan rows
    some { reconstructed_data := scan.1, data_length := scan.1.length,
           total_samples := rows.length, successful_samples := scan.2.1,
           average_confidence :=
             if 0 < scan.2.1 then scan.2.2 / (scan.2.1 : ℚ) else 0 }

/-- One frequency tag found by `parse_json_metadata` (`mbx_dsonar.c`)
together with the outcome of its bounded neighborhood search
(seek back 200 bytes, scan lines up to 100 bytes past the tag) for a
`"byte"` tag: `some v` when a byte tag parsed as hexadecimal `v` was found
nearby, `none` otherwise (the C code then leaves `byte_val = 0`). -/
structure JsonEntry where
  frequency : ℚ
  byteTag : Option ℕ
deriving DecidableEq

/-- The frequency-tag loop of `parse_json_metadata` (`mbx_dsonar.c`) with
its running `sample_index` counter: every frequency tag yields a sample
whose byte is the inverse-mapped frequency; confidence is 1.0 when
`byte_val > 0 && reconstructed == (unsigned char)byte_val` (with
`byte_val = 0` when no byte tag was found nearby), else 0.8. -/
def json_scan (config : dsonar_config) (idx : ℕ) :
    List JsonEntry → List ReverseSample
  | [] => []
  | e :: rest =>
      { create_reverse_sample e.frequency idx config with
        confidence_score :=
          if 0 < e.byteTag.getD 0 ∧
              frequency_to_byte e.frequency config = e.byteTag.getD 0 % 256
          then 1 else 4/5 } :: json_scan config (idx + 1) rest

/-- Embedding of `parse_json_metadata` (`mbx_dsonar.c`): run the frequency-tag loop;
succeeds exactly when at least one sample was created. -/
def parse_json_metadata (entries : List JsonEntry)
    (config : dsonar_config) : List ReverseSample × Bool :=
  let samples := json_scan config 0 entries
  (samples, samples.length != 0)

/-- Following the claim's words (C5, amended): the confidence the metadata
decoder assigns to an entry — 1.0 when a nonzero byte tag was found nearby
and equals the inverse-mapped byte, 0.8 otherwise. -/
def json_confidence_claimed (config : dsonar_config) (e : JsonEntry) : ℚ :=
  match e.byteTag with
  | some v =>
      if 0 < v ∧ frequency_to_byte e.frequency config = v then 1 else 4/5
  | none => 4/5

/-- Embedding of `reconstruct_from_json` (`mbx_dsonar.c`): statistics over the metadata
samples; a sample is successful when its confidence exceeds 0.5. -/
def reconstruct_from_json (entries : List JsonEntry)
    (config : dsonar_config) : Option DsonarResult :=
  let parsed := parse_json_metadata entries config
  if parsed.2 = false then none
  else
    some { reconstructed_data := (samples_to_bytes parsed.1).getD [],
           data_length := ((samples_to_bytes parsed.1).getD []).length,
           total_samples := parsed.1.length,
           successful_samples :=
             parsed.1.countP (fun s => decide ((1 : ℚ)/2 < s.confidence_score)),
           average_confidence :=
             if 0 < parsed.1.length then
               (parsed.1.map (·.confidence_score)).sum / (parsed.1.length : ℚ)
             else 0 }

/-- One text line of the analysis report, as `parse_analysis_report`
(`mbx_dsonar.c`) sees it: either a line containing the section marker
`Detailed Sample Data`, or an ordinary line with its `strlen` and the
outcome of `sscanf(line, "0x%X\t%lf\t\t%lf\t%lf", ...)`
(byte, frequency, amplitude, duration). -/
inductive report_line where
  | marker : report_line
  | content (len : ℕ) (fields : Option (ℕ × ℚ × ℚ × ℚ)) : report_line
deriving DecidableEq

/-- The line loop of `parse_analysis_report` (`mbx_dsonar.c`): a marker
line turns the data section on and the next two lines (header and
separator) are consumed unconditionally; inside the data section a line
longer than 10 characters whose scan succeeds yields a sample with
confidence 0.85 whose byte is the inverse-mapped frequency; all other
lines are passed over and the loop continues to the end of input. -/
def parse_report_lines (config : dsonar_config) (in_data_section : Bool)
    (idx : ℕ) : List report_line → List ReverseSample
  | [] => []
  | [report_line.marker] => []
  | [report_line.marker, _] => []
  | report_line.marker :: _ :: _ :: rest =>
      parse_report_lines config true idx rest
  | report_line.content len fields :: rest =>
      match in_data_section, fields with
      | true, some (_, f, _, _) =>
          if 10 < len then
            { create_reverse_sample f idx config with
              confidence_score := 17/20 } ::
              parse_report_lines config true (idx + 1) rest
          else parse_report_lines config true idx rest
      | true, none => parse_report_lines config true idx rest
      | false, _ => parse_report_lines config false idx rest

/-- Embedding of `parse_analysis_report` (`mbx_dsonar.c`): run the line loop from
outside the data section; succeed exactly when at least one sample was
parsed. -/
def parse_analysis_report (lines : List report_line)
    (config : dsonar_config) : List ReverseSample × Bool :=
  let samples := parse_report_lines config false 0 lines
  (samples, samples.length != 0)

/-- Embedding of `reconstruct_from_analysis` (`mbx_dsonar.c`): statistics over the
report samples; a sample is successful when its confidence exceeds 0.6. -/
def reconstruct_from_analysis (lines : List report_line)
    (config : dsonar_config) : Option DsonarResult :=
  let parsed := parse_analysis_report lines config
  if parsed.2 = false then none
  else
    some { reconstructed_data := (samples_to_bytes parsed.1).getD [],
           data_length := ((samples_to_bytes parsed.1).getD []).length,
           total_samples := parsed.1.length,
           successful_samples :=
             parsed.1.countP (fun s => decide ((3 : ℚ)/5 < s.confidence_score)),
           average_confidence :=
             if 0 < parsed.1.length then
               (parsed.1.map (·.confidence_score)).sum / (parsed.1.length : ℚ)
             else 0 }

/-- The zero-crossing count of `detect_dominant_frequency`
(`mbx_dsonar.c`): the number of adjacent pairs whose signs differ, with
`x >= 0` counted as non-negative. -/
def zero_crossings : List ℤ → ℕ
  | a :: b :: rest =>
      (if (0 ≤ a ∧ b < 0) ∨ (a < 0 ∧ 0 ≤ b) then 1 else 0) +
        zero_crossings (b :: rest)
  | _ => 0

/-- Embedding of `detect_dominant_frequency` (`mbx_dsonar.c`): 0 for buffers shorter
than 10 samples or with no zero crossing; otherwise
`(crossings / 2) / (buffer_size / sample_rate)`, kept only inside the
200–3000 Hz band, 0 otherwise. -/
def detect_dominant_frequency (audio_buffer : List ℤ)
    (sample_rate : ℤ) : ℚ :=
  if audio_buffer.length < 10 then 0
  else
    let zc := zero_crossings audio_buffer
    if 0 < zc then
      let duration : ℚ := (audio_buffer.length : ℚ) / (sample_rate : ℚ)
      let frequency := ((zc : ℚ) / 2) / duration
      if 200 ≤ frequency ∧ frequency ≤ 3000 then frequency else 0
    else 0

/-- The chunked read loop of `reconstruct_from_wav` (`mbx_dsonar.c`),
written with a fuel argument so that the recursion is structural: each
iteration consumes `chunk ≥ 1` elements, so `data.length + 1` units of
fuel always suffice (see `wav_windows`).  A full window is emitted per
iteration; a trailing partial window ends the loop (`fread` returning
fewer than `chunk` elements terminates the C loop; a zero `chunk` cannot
occur for positive `base_frequency` and yields the empty window list). -/
def wav_read_loop : ℕ → ℕ → List ℤ → List (List ℤ)
  | 0, _, _ => []
  | fuel + 1, chunk, data =>
      if chunk = 0 ∨ data.length < chunk then []
      else data.take chunk :: wav_read_loop fuel chunk (data.drop chunk)

/-- The list of full PCM windows `reconstruct_from_wav` reads. -/
def wav_windows (chunk : ℕ) (data : List ℤ) : List (List ℤ) :=
  wav_read_loop (data.length + 1) chunk data

/-- Embedding of `reconstruct_from_wav` (`mbx_dsonar.c`), file I/O abstracted to the
header's sample rate and the 16-bit PCM data: windows of
`(int)(base_frequency * 0.05)` samples are frequency-estimated by zero
crossings; only positive estimates yield samples, each with confidence
0.7; fails when no window produced a sample; `successful_samples` equals
`total_samples` and `average_confidence` is the fixed 0.7. -/
def reconstruct_from_wav (sample_rate : ℤ) (data : List ℤ)
    (config : dsonar_config) : Option DsonarResult :=
  let chunk := (⌊config.base_frequency * (5/100)⌋).toNat
  let freqs := ((wav_windows chunk data).map
      (fun w => detect_dominant_frequency w sample_rate)).filter
      (fun f => decide (0 < f))
  let samples := freqs.mapIdx (fun i f =>
    { create_reverse_sample f i config with confidence_score := 7/10 })
  if samples.length = 0 then none
  else
    some { reconstructed_data := (samples_to_bytes samples).getD [],
           data_length := ((samples_to_bytes samples).getD []).length,
           total_samples := samples.length,
           successful_samples := samples.length,
           average_confidence := 7/10 }

/-- The parsed data rows the report's line loop actually accepts after the
header: every line longer than 10 characters whose scan succeeds, in line
order, malformed lines skipped (used to state what the code does). -/
def parsed_data_rows : List report_line → List (ℕ × ℚ × ℚ × ℚ)
  | [] => []
  | report_line.marker :: rest => parsed_data_rows rest
  | report_line.content len fields :: rest =>
      (if 10 < len then fields.toList else []) ++ parsed_data_rows rest

/-- Following the claim's words (C6, as stated): the report decoder
"parses subsequent lines and stops at the first line that fails to parse
(or at end of input)" — the longest parsing prefix of the data lines. -/
def report_rows_claimed : List report_line → List (ℕ × ℚ × ℚ × ℚ)
  | report_line.content len (some t) :: rest =>
      if 10 < len then t :: report_rows_claimed rest else []
  | _ => []

/-- One acoustic-decoder window of the tone for byte 128: the first 11 PCM
values that the built-in generator (`generate_wav_file`, `mbx_sonar.c`)
emits for the frequency `base + 0.5 * range = 1220` Hz at 44100 Hz —
`(short)(amplitude * sin(2 * pi * 1220 * i / 44100) * 32767)` for
`i = 0..10` with `amplitude = 0.1 + (128/255) * 0.9`.  Eleven samples is
exactly the decoder's window size `(int)(base_frequency * 0.05)` for the
default 220 Hz base: 0.25 ms of audio, a third of one 1220 Hz period, so
the window contains no zero crossing at all. -/
def tone_window_1220 : List ℤ :=
  [0, 3126, 6159, 9006, 11581, 13808, 15618, 16958, 17786, 18079, 17826]

end Sonar

namespace Sonar

/-- C1: for every byte `b` in 0..255 and every matching parameter pair
(same `base_frequency` and `frequency_range`, with `frequency_range > 0`),
decoding the frequency produced by encoding `b` returns `b`:
`frequency_to_byte (map_byte_to_frequency b params) params = b`. -/
theorem sonar_C1_roundtrip (b : ℕ) (hb : b ≤ 255)
    (sc : sonar_config) (dc : dsonar_config)
    (hbase : sc.base_frequency = dc.base_frequency)
    (hrange : sc.frequency_range = dc.frequency_range)
    (hpos : 0 < dc.frequency_range) :
    frequency_to_byte (map_byte_to_frequency b sc) dc = b := by
  unfold frequency_to_byte map_byte_to_frequency
  rw [hbase, hrange]
  have hb255 : ((b : ℚ) / 255) ≤ 1 := by
    rw [div_le_one (by norm_num)]
    exact_mod_cast hb
  have hbnn : (0 : ℚ) ≤ (b : ℚ) / 255 := by positivity
  have h1 : ¬ (dc.base_frequency + (b : ℚ) / 255 * dc.frequency_range
      < dc.base_frequency) := by
    have : (0 : ℚ) ≤ (b : ℚ) / 255 * dc.frequency_range :=
      mul_nonneg hbnn hpos.le
    linarith
  have h2 : ¬ (dc.base_frequency + (b : ℚ) / 255 * dc.frequency_range
      > dc.base_frequency + dc.frequency_range) := by
    have : (b : ℚ) / 255 * dc.frequency_range ≤ 1 * dc.frequency_range :=
      mul_le_mul_of_nonneg_right hb255 hpos.le
    linarith
  rw [if_neg h1, if_neg h2]
  have hsimp : (dc.base_frequency + (b : ℚ) / 255 * dc.frequency_range
      - dc.base_frequency) / dc.frequency_range * 255 = (b : ℚ) := by
    rw [add_sub_cancel_left, mul_div_assoc, div_self hpos.ne', mul_one,
      div_mul_cancel₀]
    norm_num
  rw [hsimp]
  have hfloor : ⌊(b : ℚ) + 1/2⌋ = (b : ℤ) := by
    rw [Int.floor_eq_iff]
    push_cast
    constructor <;> linarith
  rw [hfloor, Int.toNat_natCast]

/-- Witness for C1 at byte 65 with the shipped default parameters. -/
theorem sonar_C1_roundtrip_witness :
    frequency_to_byte (map_byte_to_frequency 65 default_config)
      default_dsonar_config = 65 :=
  sonar_C1_roundtrip 65 (by norm_num) default_config default_dsonar_config
    rfl rfl (by norm_num [default_dsonar_config])

/-- C9: the decoder clamps out-of-range inputs — below `base_frequency`
to 0, above `base_frequency + frequency_range` to 255 — and otherwise
returns `round(((f - base_frequency) / frequency_range) * 255)` with
round-half-up rounding. -/
theorem sonar_C9_clamping (f : ℚ) (dc : dsonar_config)
    (hpos : 0 < dc.frequency_range) :
    (f < dc.base_frequency → frequency_to_byte f dc = 0) ∧
    (dc.base_frequency + dc.frequency_range < f → frequency_to_byte f dc = 255) ∧
    (dc.base_frequency ≤ f → f ≤ dc.base_frequency + dc.frequency_range →
      frequency_to_byte f dc =
        (roundHalfUp ((f - dc.base_frequency) / dc.frequency_range * 255)).toNat) := by
  refine ⟨fun hlt => ?_, fun hgt => ?_, fun hge hle => ?_⟩
  · rw [frequency_to_byte, if_pos hlt]
  · have hnotlt : ¬ f < dc.base_frequency := by linarith
    rw [frequency_to_byte, if_neg hnotlt, if_pos hgt]
  · have h1 : ¬ f < dc.base_frequency := not_lt.mpr hge
    have h2 : ¬ f > dc.base_frequency + dc.frequency_range := not_lt.mpr hle
    rw [frequency_to_byte, if_neg h1, if_neg h2, roundHalfUp]

/-- Witness for C9: with the default decode parameters, 100 Hz clamps to
byte 0, 3000 Hz clamps to byte 255, and 1220 Hz rounds to byte 128. -/
theorem sonar_C9_clamping_witness :
    frequency_to_byte 100 default_dsonar_config = 0 ∧
    frequency_to_byte 3000 default_dsonar_config = 255 ∧
    frequency_to_byte 1220 default_dsonar_config =
      (roundHalfUp ((1220 - default_dsonar_config.base_frequency) /
        default_dsonar_config.frequency_range * 255)).toNat :=
  ⟨(sonar_C9_clamping 100 default_dsonar_config
      (by norm_num [default_dsonar_config])).1
      (by norm_num [default_dsonar_config]),
   (sonar_C9_clamping 3000 default_dsonar_config
      (by norm_num [default_dsonar_config])).2.1
      (by norm_num [default_dsonar_config]),
   (sonar_C9_clamping 1220 default_dsonar_config
      (by norm_num [default_dsonar_config])).2.2
      (by norm_num [default_dsonar_config])
      (by norm_num [default_dsonar_config])⟩

/-- Helper: the tail-walking `add_reverse_sample` is append at the tail. -/
theorem add_reverse_sample_eq_append (l : List ReverseSample)
    (s : ReverseSample) : add_reverse_sample l s = l ++ [s] := by
  induction l with
  | nil => rfl
  | cons x rest ih => simp [add_reverse_sample, ih]

/-- Helper: folding `add_reverse_sample` over a list of samples appends
them, in order, after the accumulator. -/
theorem foldl_add_reverse_sample (ss acc : List ReverseSample) :
    ss.foldl add_reverse_sample acc = acc ++ ss := by
  induction ss generalizing acc with
  | nil => simp
  | cons x rest ih => simp [List.foldl_cons, add_reverse_sample_eq_append, ih]

/-- C10: a reverse-sample list built by successive `add_reverse_sample`
calls on the empty list holds the samples in insertion order;
`samples_to_bytes` is `none` exactly on the empty list, and on a non-empty
list returns the buffer of `reconstructed_byte` fields whose length is the
number of samples and whose i-th byte is the i-th sample's byte. -/
theorem sonar_C10_sample_sequence (ss : List ReverseSample) :
    ss.foldl add_reverse_sample [] = ss ∧
    (samples_to_bytes ss = none ↔ ss = []) ∧
    (ss ≠ [] → samples_to_bytes ss =
      some (ss.map (·.reconstructed_byte))) ∧
    (ss.map (·.reconstructed_byte)).length = ss.length ∧
    (∀ i, (ss.map (·.reconstructed_byte)).get? i =
      (ss.get? i).map (·.reconstructed_byte)) := by
  refine ⟨by simpa using foldl_add_reverse_sample ss [], ?_, ?_, by simp,
    fun i => by simp⟩
  · cases ss with
    | nil => simp [samples_to_bytes]
    | cons x rest => simp [samples_to_bytes]
  · intro hne
    cases ss with
    | nil => exact absurd rfl hne
    | cons x rest => rfl

/-- Witness for C10 on a concrete two-sample list. -/
theorem sonar_C10_sample_sequence_witness :
    samples_to_bytes
        [⟨5, 700, 1/2, 0⟩, ⟨9, 800, 7/10, 1⟩] = some [5, 9] :=
  ((sonar_C10_sample_sequence
      [⟨5, 700, 1/2, 0⟩, ⟨9, 800, 7/10, 1⟩]).2.2.1
    (by decide)).trans (by decide)

/-- C2: the accuracy oracle over the minimum of the two lengths is the
number of positionwise equal bytes divided by that length. -/
theorem sonar_C2_accuracy (original reconstructed : List ℕ)
    (h : 0 < min original.length reconstructed.length) :
    calculate_reconstruction_accuracy original reconstructed
        (((min original.length reconstructed.length : ℕ)) : ℤ) =
      (((original.zip reconstructed).countP (fun p => p.1 == p.2) : ℚ)) /
        ((min original.length reconstructed.length : ℕ) : ℚ) := by
  unfold calculate_reconstruction_accuracy
  rw [if_neg (Int.natCast_pos.mpr h).not_le, Int.toNat_natCast,
    ← List.length_zip, List.take_length, Int.cast_natCast]

/-- Witness for C2: comparing `[1,2,3,4]` against `[1,2,9,4]` yields
accuracy `0.75`. -/
theorem sonar_C2_accuracy_witness :
    calculate_reconstruction_accuracy [1, 2, 3, 4] [1, 2, 9, 4]
        (((min (List.length [1, 2, 3, 4]) (List.length [1, 2, 9, 4]) : ℕ)) : ℤ) =
      3/4 :=
  (sonar_C2_accuracy [1, 2, 3, 4] [1, 2, 9, 4] (by decide)).trans
    (by norm_num)

/-- Helper: the combiner loop concatenates the present partition buffers in
partition-index order. -/
theorem combine_loop_eq_join (parts : List (Option (List ℕ))) :
    combine_loop parts = (parts.filterMap id).flatten := by
  induction parts with
  | nil => rfl
  | cons p rest ih => cases p <;> simp [combine_loop, ih]

/-- C8: the combiner concatenates the per-partition buffers in
partition-index order, skipping missing partitions; it fails exactly when
the total byte count is zero; combining partitions of sizes 10, missing,
and 5 yields a 15-byte output and success. -/
theorem sonar_C8_combiner :
    (∀ parts, (combine_partition_files parts).1 =
      (parts.filterMap id).flatten) ∧
    (∀ parts, (combine_partition_files parts).2 = true ↔
      (combine_partition_files parts).1.length ≠ 0) ∧
    (combine_partition_files
        [some (List.replicate 10 7), none,
         some (List.replicate 5 3)]).1.length = 15 ∧
    (combine_partition_files
        [some (List.replicate 10 7), none,
         some (List.replicate 5 3)]).2 = true := by
  refine ⟨fun parts => combine_loop_eq_join parts, fun parts => ?_,
    by decide, by decide⟩
  simp [combine_partition_files]

/-- Helper: the CSV data-line loop produces, over the parsed rows in line
order, the mod-256 bytes, the parsed-row count, and the amplitude total. -/
theorem csv_scan_eq (rows : List (Option CsvRow)) :
    csv_scan rows =
      ((rows.filterMap id).map (fun r => (r.byte_dec % 256).toNat),
       (rows.filterMap id).length,
       ((rows.filterMap id).map (·.amplitude)).sum) := by
  induction rows with
  | nil => rfl
  | cons p rest ih => cases p <;> simp [csv_scan, ih]

/-- C3: on a CSV table whose data rows all parse (and whose decimal byte
fields are bytes), the table decoder emits the decimal byte fields
directly, in row order, with `total_samples` the number of data rows and
`average_confidence` the arithmetic mean of the amplitude fields. -/
theorem sonar_C3_table_decoder (rows : List CsvRow) (hne : rows ≠ [])
    (hbyte : ∀ row ∈ rows, 0 ≤ row.byte_dec ∧ row.byte_dec < 256) :
    reconstruct_from_csv true (rows.map some) =
      some { reconstructed_data := rows.map (fun row => row.byte_dec.toNat),
             data_length := rows.length,
             total_samples := rows.length,
             successful_samples := rows.length,
             average_confidence :=
               ((rows.map (·.amplitude)).sum) / (rows.length : ℚ) } := by
  have hfm : (rows.map some).filterMap id = rows := by
    simp [List.filterMap_map]
  have hmap : rows.map (fun r => (r.byte_dec % 256).toNat) =
      rows.map (fun r => r.byte_dec.toNat) :=
    List.map_congr_left (fun r hr => by
      rw [Int.emod_eq_of_lt (hbyte r hr).1 (hbyte r hr).2])
  have hlen : 0 < rows.length := List.length_pos.mpr hne
  unfold reconstruct_from_csv
  rw [csv_scan_eq, hfm, hmap]
  simp [hlen, hlen.ne']

/-- Witness for C3: the 3-row table with decimal bytes 0x41, 0x42, 0x43
and amplitudes 1/2, 1/4, 3/4 reconstructs to `[0x41, 0x42, 0x43]` with
`total_samples = 3` and mean confidence 1/2. -/
theorem sonar_C3_table_decoder_witness :
    reconstruct_from_csv true
        ([⟨0, "0x41", 65, 730, 1/2, 1/20⟩,
          ⟨1, "0x42", 66, 738, 1/4, 1/20⟩,
          ⟨2, "0x43", 67, 746, 3/4, 1/20⟩].map some) =
      some { reconstructed_data := [65, 66, 67], data_length := 3,
             total_samples := 3, successful_samples := 3,
             average_confidence := 1/2 } :=
  (sonar_C3_table_decoder
      [⟨0, "0x41", 65, 730, 1/2, 1/20⟩,
       ⟨1, "0x42", 66, 738, 1/4, 1/20⟩,
       ⟨2, "0x43", 67, 746, 3/4, 1/20⟩]
      (by decide) (by decide)).trans (by norm_num; exact ⟨rfl, rfl, rfl⟩)

/-- C5 counterexample: a frequency tag at exactly `base_frequency`
inverse-maps to byte `0x00`; a byte tag `"0x00"` is found nearby and
matches, so the claim requires confidence 1.0 — but the code's
`byte_val > 0` guard conflates the found tag `0x00` with "no tag found"
and assigns 0.8. -/
theorem sonar_C5_cex :
    frequency_to_byte 220 default_dsonar_config = 0 ∧
    ((parse_json_metadata [⟨220, some 0⟩]
        default_dsonar_config).1).map (·.confidence_score) = [4/5] ∧
    ((parse_json_metadata [⟨220, some 0⟩]
        default_dsonar_config).1).map (·.confidence_score) ≠ [1] := by
  refine ⟨by norm_num [frequency_to_byte, default_dsonar_config], ?_, ?_⟩ <;>
    norm_num [parse_json_metadata, json_scan, create_reverse_sample,
      frequency_to_byte, default_dsonar_config]

/-- Helper for C5: the metadata loop, started at any index, produces one
sample per entry: the i-th sample carries the inverse-mapped byte of the
i-th frequency, the running index, and — provided the byte tags are bytes,
so that the C cast `(unsigned char)byte_val` is the identity — confidence
1.0 exactly when a nonzero byte tag was found that equals the
inverse-mapped byte, 0.8 otherwise. -/
theorem json_scan_get (config : dsonar_config) (entries : List JsonEntry)
    (htag : ∀ e ∈ entries, ∀ v ∈ e.byteTag, v ≤ 255) :
    ∀ idx i, (json_scan config idx entries).get? i =
      (entries.get? i).map (fun e =>
        { reconstructed_byte := frequency_to_byte e.frequency config,
          source_frequency := e.frequency,
          confidence_score := json_confidence_claimed config e,
          sample_index := idx + i }) := by
  induction entries with
  | nil => intro idx i; simp [json_scan]
  | cons e rest ih =>
    intro idx i
    have htag_e : ∀ v ∈ e.byteTag, v ≤ 255 :=
      htag e (List.mem_cons_self e rest)
    have htag_rest : ∀ x ∈ rest, ∀ v ∈ x.byteTag, v ≤ 255 :=
      fun x hx => htag x (List.mem_cons_of_mem e hx)
    cases i with
    | zero =>
      simp only [json_scan, List.get?_cons_zero, Option.map_some,
        Nat.add_zero]
      cases hbt : e.byteTag with
      | none =>
        simp [create_reverse_sample, json_confidence_claimed, hbt]
      | some v =>
        have hv : v % 256 = v :=
          Nat.mod_eq_of_lt (Nat.lt_succ_of_le (htag_e v (by simp [hbt])))
        simp [create_reverse_sample, json_confidence_claimed, hbt, hv]
    | succ n =>
      simp only [json_scan, List.get?_cons_succ]
      rw [ih htag_rest (idx + 1) n]
      cases rest.get? n <;> simp [Nat.add_assoc, Nat.add_comm 1 n]

/-- C5 (amended): for every frequency tag the metadata decoder finds (with
byte tags in 0..255), the recorded sample's byte is the inverse-mapped
frequency and its confidence is 1.0 when a byte tag was found nearby that
is nonzero and equals the inverse-mapped byte, and 0.8 otherwise —
including when the found tag is `0x00`, even if it matches; the sample is
always recorded, and the decoder fails exactly when zero samples are
found. -/
theorem sonar_C5_metadata_confidence (entries : List JsonEntry)
    (config : dsonar_config)
    (htag : ∀ e ∈ entries, ∀ v ∈ e.byteTag, v ≤ 255) :
    (∀ i, ((parse_json_metadata entries config).1).get? i =
      (entries.get? i).map (fun e =>
        { reconstructed_byte := frequency_to_byte e.frequency config,
          source_frequency := e.frequency,
          confidence_score := json_confidence_claimed config e,
          sample_index := i })) ∧
    ((parse_json_metadata entries config).2 = true ↔ entries ≠ []) := by
  constructor
  · intro i
    simpa using json_scan_get config entries htag 0 i
  · cases entries with
    | nil => simp [parse_json_metadata, json_scan]
    | cons e rest => simp [parse_json_metadata, json_scan]

/-- Witness for C5 on two concrete entries: a matching nonzero byte tag
yields confidence 1.0, a mismatching one yields 0.8. -/
theorem sonar_C5_metadata_confidence_witness :
    ((parse_json_metadata [⟨2220, some 255⟩, ⟨220, some 9⟩]
        default_dsonar_config).1).get? 0 =
      some ⟨255, 2220, 1, 0⟩ ∧
    ((parse_json_metadata [⟨2220, some 255⟩, ⟨220, some 9⟩]
        default_dsonar_config).1).get? 1 =
      some ⟨0, 220, 4/5, 1⟩ :=
  ⟨((sonar_C5_metadata_confidence [⟨2220, some 255⟩, ⟨220, some 9⟩]
        default_dsonar_config (by decide)).1 0).trans (by
      norm_num [json_confidence_claimed, frequency_to_byte,
        default_dsonar_config]
      rfl),
   ((sonar_C5_metadata_confidence [⟨2220, some 255⟩, ⟨220, some 9⟩]
        default_dsonar_config (by decide)).1 1).trans (by
      norm_num [json_confidence_claimed, frequency_to_byte,
        default_dsonar_config])⟩

/-- C6 counterexample: in a report whose data section holds a good line,
then a malformed line, then another good line, the claim's
stop-at-first-malformed-line behavior would keep only the 800 Hz sample,
but the code skips the malformed line and also parses the 900 Hz line. -/
theorem sonar_C6_cex :
    ((parse_analysis_report
        [report_line.marker, report_line.content 30 none,
         report_line.content 30 none,
         report_line.content 20 (some (72, 800, 2/5, 1/20)),
         report_line.content 20 none,
         report_line.content 20 (some (65, 900, 2/5, 1/20))]
        default_dsonar_config).1).map (·.source_frequency) = [800, 900] ∧
    ¬ (((parse_analysis_report
        [report_line.marker, report_line.content 30 none,
         report_line.content 30 none,
         report_line.content 20 (some (72, 800, 2/5, 1/20)),
         report_line.content 20 none,
         report_line.content 20 (some (65, 900, 2/5, 1/20))]
        default_dsonar_config).1).map (·.source_frequency) =
      (report_rows_claimed
        [report_line.content 20 (some (72, 800, 2/5, 1/20)),
         report_line.content 20 none,
         report_line.content 20 (some (65, 900, 2/5, 1/20))]).map
        (fun t => t.2.1)) := by
  constructor <;>
    norm_num [parse_analysis_report, parse_report_lines,
      report_rows_claimed, create_reverse_sample]

/-- Helper for C6: inside the data section, with no further section
marker, the line loop produces exactly one sample per accepted data row
(longer than 10 characters and successfully scanned), in line order, with
confidence 0.85 and the inverse-mapped byte; malformed lines are skipped
and the loop continues to the end of the input. -/
theorem parse_report_lines_sound (config : dsonar_config)
    (rest : List report_line) (hnm : report_line.marker ∉ rest) :
    ∀ idx,
      (parse_report_lines config true idx rest).map (·.source_frequency) =
        (parsed_data_rows rest).map (fun t => t.2.1) ∧
      ∀ s ∈ parse_report_lines config true idx rest,
        s.confidence_score = 17/20 ∧
        s.reconstructed_byte = frequency_to_byte s.source_frequency config := by
  induction rest with
  | nil => intro idx; simp [parse_report_lines, parsed_data_rows]
  | cons l rest ih =>
    intro idx
    have hl : l ≠ report_line.marker := fun h => hnm (h ▸ List.mem_cons_self l rest)
    have hnm_rest : report_line.marker ∉ rest :=
      fun h => hnm (List.mem_cons_of_mem l h)
    cases l with
    | marker => exact absurd rfl hl
    | content len fields =>
      cases fields with
      | none =>
        simpa [parse_report_lines, parsed_data_rows] using ih hnm_rest idx
      | some t =>
        obtain ⟨b, f, a, d⟩ := t
        by_cases hlen : 10 < len
        · have := ih hnm_rest (idx + 1)
          refine ⟨?_, ?_⟩
          · simpa [parse_report_lines, parsed_data_rows, hlen,
              create_reverse_sample] using this.1
          · intro s hs
            rw [parse_report_lines] at hs
            simp only [hlen, if_true] at hs
            rcases List.mem_cons.mp hs with hhead | htail
            · subst hhead
              exact ⟨rfl, rfl⟩
            · exact this.2 s htail
        · simpa [parse_report_lines, parsed_data_rows, hlen] using
            ih hnm_rest idx

/-- C6 (amended): the report decoder locates the section marker, skips
exactly the next two lines, then scans every remaining line to the end of
the input, skipping lines that are short or fail to parse (rather than
stopping at the first such line); every accepted line yields a sample
whose byte is the inverse-mapped frequency and whose confidence is
exactly 0.85; the decoder succeeds exactly when at least one sample was
parsed. -/
theorem sonar_C6_report_decoder (config : dsonar_config)
    (h1 h2 : report_line) (rest : List report_line)
    (hnm : report_line.marker ∉ rest) :
    ((parse_analysis_report
        (report_line.marker :: h1 :: h2 :: rest) config).1).map
        (·.source_frequency) =
      (parsed_data_rows rest).map (fun t => t.2.1) ∧
    (∀ s ∈ (parse_analysis_report
        (report_line.marker :: h1 :: h2 :: rest) config).1,
      s.confidence_score = 17/20 ∧
      s.reconstructed_byte = frequency_to_byte s.source_frequency config) ∧
    ((parse_analysis_report
        (report_line.marker :: h1 :: h2 :: rest) config).2 = true ↔
      (parse_analysis_report
        (report_line.marker :: h1 :: h2 :: rest) config).1 ≠ []) := by
  have hrun : (parse_analysis_report
      (report_line.marker :: h1 :: h2 :: rest) config).1 =
      parse_report_lines config true 0 rest := rfl
  have hsound := parse_report_lines_sound config rest hnm 0
  refine ⟨by rw [hrun]; exact hsound.1, by rw [hrun]; exact hsound.2, ?_⟩
  rw [parse_analysis_report]
  simp [hrun]

/-- Witness for C6: a report with two well-formed data lines after the
header yields exactly the two frequencies, in order. -/
theorem sonar_C6_report_decoder_witness :
    ((parse_analysis_report
        [report_line.marker, report_line.content 30 none,
         report_line.content 30 none,
         report_line.content 20 (some (72, 785, 7/20, 1/20)),
         report_line.content 20 (some (65, 730, 7/20, 1/20))]
        default_dsonar_config).1).map (·.source_frequency) =
      [785, 730] :=
  ((sonar_C6_report_decoder default_dsonar_config
      (report_line.content 30 none) (report_line.content 30 none)
      [report_line.content 20 (some (72, 785, 7/20, 1/20)),
       report_line.content 20 (some (65, 730, 7/20, 1/20))]
      (by decide)).1).trans (by norm_num [parsed_data_rows])

/-- C7 (evaluation at the failing input): one acoustic window of the tone
`base_frequency + 0.5 * frequency_range = 1220` Hz, with the default
parameters, contains no zero crossing — the window is only
`(int)(base_frequency * 0.05) = 11` samples (0.25 ms, despite the
"50ms chunks" comment in the code), a third of one period — so the
estimated frequency is 0, no sample is produced, and the decoder fails
instead of decoding byte 128 with confidence 0.7 as the claim requires. -/
theorem sonar_C7_acoustic_failing_input :
    zero_crossings tone_window_1220 = 0 ∧
    detect_dominant_frequency tone_window_1220 44100 = 0 ∧
    reconstruct_from_wav 44100 tone_window_1220 default_dsonar_config =
      none := by
  have hzc : zero_crossings tone_window_1220 = 0 := by
    norm_num [tone_window_1220, zero_crossings]
  have hdet : detect_dominant_frequency tone_window_1220 44100 = 0 := by
    norm_num [detect_dominant_frequency, tone_window_1220, zero_crossings]
  have hdet2 : detect_dominant_frequency
      [0, 3126, 6159, 9006, 11581, 13808, 15618, 16958, 17786, 18079, 17826]
      44100 = 0 := hdet
  have hchunk : (⌊default_dsonar_config.base_frequency * (5/100)⌋).toNat = 11 := by
    norm_num [default_dsonar_config]
    rfl
  refine ⟨hzc, hdet, ?_⟩
  rw [reconstruct_from_wav, hchunk]
  norm_num [wav_windows, wav_read_loop, tone_window_1220, hdet2]

/-- Helper: the metadata loop yields one sample per frequency tag. -/
theorem json_scan_length (config : dsonar_config) (entries : List JsonEntry) :
    ∀ idx, (json_scan config idx entries).length = entries.length := by
  induction entries with
  | nil => intro idx; rfl
  | cons e rest ih => intro idx; simp [json_scan, ih]

/-- C4 counterexample: a single CSV row whose amplitude-derived confidence
is 0.3 is nevertheless counted as successful — `successful_samples` is 1
while the claim's count of samples with confidence above 0.5 is 0. -/
theorem sonar_C4_cex :
    ¬ ((reconstruct_from_csv true
          [some ⟨1, "0x41", 65, 730, 3/10, 1/20⟩]).map
        (·.successful_samples) =
      some (([some (⟨1, "0x41", 65, 730, 3/10, 1/20⟩ : CsvRow)].filterMap
          id).countP (fun r => decide ((1 : ℚ)/2 < r.amplitude)))) := by
  norm_num [reconstruct_from_csv, csv_scan, List.countP_cons,
    List.countP_nil, List.filterMap_cons, List.filterMap_nil]

/-- C4 (amended): `successful_samples` is the count of samples whose
confidence exceeds 0.5 for the metadata (JSON) decoder and 0.6 for the
analysis-report decoder; the acoustic (WAV) decoder counts every sample;
and the table (CSV) decoder counts every parsed row as successful,
regardless of its amplitude-derived confidence. -/
theorem sonar_C4_successful_samples :
    (∀ rows : List (Option CsvRow), rows ≠ [] →
      (reconstruct_from_csv true rows).map (·.successful_samples) =
        some (rows.filterMap id).length) ∧
    (∀ entries config, entries ≠ [] →
      (reconstruct_from_json entries config).map (·.successful_samples) =
        some ((parse_json_metadata entries config).1.countP
          (fun s => decide ((1 : ℚ)/2 < s.confidence_score)))) ∧
    (∀ lines config, (parse_analysis_report lines config).1 ≠ [] →
      (reconstruct_from_analysis lines config).map (·.successful_samples) =
        some ((parse_analysis_report lines config).1.countP
          (fun s => decide ((3 : ℚ)/5 < s.confidence_score)))) ∧
    (∀ (sample_rate : ℤ) (data : List ℤ) (config : dsonar_config)
        (r : DsonarResult),
      reconstruct_from_wav sample_rate data config = some r →
      r.successful_samples = r.total_samples) := by
  refine ⟨fun rows hne => ?_, fun entries config hne => ?_,
    fun lines config hne => ?_, fun sample_rate data config r h => ?_⟩
  · unfold reconstruct_from_csv
    rw [csv_scan_eq]
    simp [List.length_eq_zero, hne]
  · have hlen : (json_scan config 0 entries).length = entries.length :=
      json_scan_length config entries 0
    unfold reconstruct_from_json parse_json_metadata
    simp [hlen, List.length_eq_zero, hne, parse_json_metadata]
  · unfold reconstruct_from_analysis
    rw [parse_analysis_report] at hne ⊢
    simp [List.length_eq_zero, hne]
  · simp only [reconstruct_from_wav] at h
    split at h
    · exact absurd h (by simp)
    · rw [← Option.some_inj.mp h]

/-- Witness for C4 on concrete inputs for all four decoders: a parsed CSV
row counts as successful; a metadata sample with confidence 0.8 counts
(0.8 > 0.5); a report sample with confidence 0.85 counts (0.85 > 0.6);
and a WAV result counts all its samples. -/
theorem sonar_C4_successful_samples_witness :
    ((reconstruct_from_csv true
        [some ⟨2, "0x42", 66, 737, 9/10, 1/20⟩]).map
      (·.successful_samples) = some 1) ∧
    ((reconstruct_from_json [⟨220, none⟩] default_dsonar_config).map
      (·.successful_samples) = some 1) ∧
    ((reconstruct_from_analysis
        [report_line.marker, report_line.content 30 none,
         report_line.content 30 none,
         report_line.content 20 (some (72, 800, 2/5, 1/20))]
        default_dsonar_config).map (·.successful_samples) = some 1) ∧
    (DsonarResult.successful_samples ⟨[228], 1, 7/10, 1, 1⟩ =
      DsonarResult.total_samples ⟨[228], 1, 7/10, 1, 1⟩) := by
  refine ⟨?_, ?_, ?_, ?_⟩
  · exact (sonar_C4_successful_samples.1
        [some ⟨2, "0x42", 66, 737, 9/10, 1/20⟩] (by decide)).trans
      (by norm_num [List.filterMap_cons, List.filterMap_nil])
  · exact (sonar_C4_successful_samples.2.1 [⟨220, none⟩]
        default_dsonar_config (by decide)).trans
      (by norm_num [parse_json_metadata, json_scan, create_reverse_sample,
        frequency_to_byte, default_dsonar_config, List.countP_cons])
  · refine (sonar_C4_successful_samples.2.2.1
        [report_line.marker, report_line.content 30 none,
         report_line.content 30 none,
         report_line.content 20 (some (72, 800, 2/5, 1/20))]
        default_dsonar_config ?_).trans ?_
    · norm_num [parse_analysis_report, parse_report_lines,
        create_reverse_sample]
    · norm_num [parse_analysis_report, parse_report_lines,
        create_reverse_sample, List.countP_cons]
  · exact sonar_C4_successful_samples.2.2.2 44100
      [5, 5, 5, 5, 5, -5, -5, -5, -5, -5, -5] default_dsonar_config
      ⟨[228], 1, 7/10, 1, 1⟩ (by
        rw [reconstruct_from_wav,
          show (⌊default_dsonar_config.base_frequency * (5/100)⌋).toNat = 11
            from by norm_num [default_dsonar_config]; rfl]
        norm_num [wav_windows, wav_read_loop, detect_dominant_frequency,
          zero_crossings, create_reverse_sample, frequency_to_byte,
          samples_to_bytes, default_dsonar_config]
        rfl)

end Sonar
